import Mathlib

/-!
# Verification of the rag-eval-harness core against its specification

Shallow embedding of the core of the `rag_eval` package:

* `src/rag_eval/evaluate.py` — `_normalize`, `must_include_score`,
  `must_not_include_violations`, `grounding_score`, `evaluate_run`;
* `src/rag_eval/retrieve.py` — `TfidfRetriever` (TF-IDF vector space model and
  cosine-similarity ranking);
* `src/rag_eval/report.py` — `compare_runs`.

Python strings are modelled as `List Char` (`Str`), numbers computed by the
code in IEEE floating point are modelled in exact arithmetic (`ℚ` where the
source computes only field operations on rationals, `ℝ` where logarithms and
square roots appear).
-/

namespace RagEval

/-- Python strings, modelled as lists of characters. -/
abbrev Str := List Char

/-- The ASCII whitespace characters recognised by Python's `str.strip` and by
`\s` in `re` (the Unicode additions are irrelevant to the texts considered
here). -/
def isPySpace (c : Char) : Bool :=
  c == ' ' || c == '\t' || c == '\n' || c == '\r' || c == '\x0b' || c == '\x0c'

/-- Python `str.strip()`: remove leading and trailing whitespace. -/
def strip (s : Str) : Str :=
  ((s.dropWhile isPySpace).reverse.dropWhile isPySpace).reverse

/-- `True` iff the string is empty or consists only of whitespace, i.e. the
Python condition `not s or not s.strip()`. -/
def allWS (s : Str) : Bool := s.all isPySpace

/-- Helper for `collapseWS`: the flag records whether the previous character
was whitespace (already emitted as the single space of its run). -/
def collapseAux : Bool → Str → Str
  | _, [] => []
  | prevSpace, c :: rest =>
    if isPySpace c then
      if prevSpace then collapseAux true rest
      else ' ' :: collapseAux true rest
    else c :: collapseAux false rest

/-- Collapse every maximal run of whitespace to a single space,
the effect of `re.sub(r"\s+", " ", text)`. -/
def collapseWS (s : Str) : Str := collapseAux false s

/-- `_normalize` from `evaluate.py`: lowercase, collapse whitespace runs to a
single space, strip. -/
def normalizeText (s : Str) : Str := strip (collapseWS (s.map Char.toLower))

/-- One pass of the phrase test performed by both scoring loops in
`evaluate.py`: the normalised phrase is non-empty and occurs as a literal
substring of the (already normalised) answer — Python `p and p in a`. -/
def phraseHit (a : Str) (p : Str) : Bool :=
  let q := normalizeText p
  !q.isEmpty && decide (q <:+: a)

/-- `must_include_score` from `evaluate.py`: fraction of required phrases
present in the answer; `1.0` when there are no requirements. -/
def must_include_score (answer : Str) (must_include : List Str) : ℚ :=
  if must_include.isEmpty then 1
  else
    (must_include.countP (phraseHit (normalizeText answer)) : ℚ) /
      (must_include.length : ℚ)

/-- `must_not_include_violations` from `evaluate.py`: number of forbidden
phrases present in the answer. -/
def must_not_include_violations (answer : Str) (must_not_include : List Str) : ℕ :=
  if must_not_include.isEmpty then 0
  else must_not_include.countP (phraseHit (normalizeText answer))

/-! ## The TF-IDF vector space model

Both `TfidfRetriever.__init__` (retrieve.py) and `grounding_score`
(evaluate.py) build `sklearn.TfidfVectorizer(stop_words="english",
ngram_range=(1, 2))`; the retriever additionally passes
`max_features=5000`.  The vectorizer lowercases, extracts the tokens matched
by `\w\w+` (maximal word-character runs of length at least two), removes the
built-in English stop words, forms all unigrams and bigrams of the surviving
token sequence, weighs raw term counts by the smoothed
`idf(t) = ln((1+N)/(1+df(t))) + 1` and l2-normalises each row. -/

/-- A word character of `\w` (ASCII fragment). -/
def isWordChar (c : Char) : Bool := c.isAlphanum || c == '_'

/-- Lowercase and extract the tokens matched by `\w\w+`: maximal runs of word
characters of length at least two. -/
def tokenize (s : Str) : List Str :=
  ((s.map Char.toLower).splitOnP (fun c => !isWordChar c)).filter
    (fun t => 2 ≤ t.length)

/-- The built-in English stop-word list of the vectorizer
(`sklearn.feature_extraction.text.ENGLISH_STOP_WORDS`). -/
def stopWords : List Str :=
  (["a", "about", "above", "across", "after", "afterwards", "again", "against",
    "all", "almost", "alone", "along", "already", "also", "although", "always",
    "am", "among", "amongst", "amoungst", "amount", "an", "and", "another",
    "any", "anyhow", "anyone", "anything", "anyway", "anywhere", "are",
    "around", "as", "at", "back", "be", "became", "because", "become",
    "becomes", "becoming", "been", "before", "beforehand", "behind", "being",
    "below", "beside", "besides", "between", "beyond", "bill", "both",
    "bottom", "but", "by", "call", "can", "cannot", "cant", "co", "con",
    "could", "couldnt", "cry", "de", "describe", "detail", "do", "done",
    "down", "due", "during", "each", "eg", "eight", "either", "eleven",
    "else", "elsewhere", "empty", "enough", "etc", "even", "ever", "every",
    "everyone", "everything", "everywhere", "except", "few", "fifteen",
    "fifty", "fill", "find", "fire", "first", "five", "for", "former",
    "formerly", "forty", "found", "four", "from", "front", "full", "further",
    "get", "give", "go", "had", "has", "hasnt", "have", "he", "hence", "her",
    "here", "hereafter", "hereby", "herein", "hereupon", "hers", "herself",
    "him", "himself", "his", "how", "however", "hundred", "i", "ie", "if",
    "in", "inc", "indeed", "interest", "into", "is", "it", "its", "itself",
    "keep", "last", "latter", "latterly", "least", "less", "ltd", "made",
    "many", "may", "me", "meanwhile", "might", "mill", "mine", "more",
    "moreover", "most", "mostly", "move", "much", "must", "my", "myself",
    "name", "namely", "neither", "never", "nevertheless", "next", "nine",
    "no", "nobody", "none", "noone", "nor", "not", "nothing", "now",
    "nowhere", "of", "off", "often", "on", "once", "one", "only", "onto",
    "or", "other", "others", "otherwise", "our", "ours", "ourselves", "out",
    "over", "own", "part", "per", "perhaps", "please", "put", "rather", "re",
    "same", "see", "seem", "seemed", "seeming", "seems", "serious", "several",
    "she", "should", "show", "side", "since", "sincere", "six", "sixty", "so",
    "some", "somehow", "someone", "something", "sometime", "sometimes",
    "somewhere", "still", "such", "system", "take", "ten", "than", "that",
    "the", "their", "them", "themselves", "then", "thence", "there",
    "thereafter", "thereby", "therefore", "therein", "thereupon", "these",
    "they", "thick", "thin", "third", "this", "those", "though", "three",
    "through", "throughout", "thru", "thus", "to", "together", "too", "top",
    "toward", "towards", "twelve", "twenty", "two", "un", "under", "until",
    "up", "upon", "us", "very", "via", "was", "we", "well", "were", "what",
    "whatever", "when", "whence", "whenever", "where", "whereafter",
    "whereas", "whereby", "wherein", "whereupon", "wherever", "whether",
    "which", "while", "whither", "who", "whoever", "whole", "whom", "whose",
    "why", "will", "with", "within", "without", "would", "yet", "you",
    "your", "yours", "yourself", "yourselves"] : List String).map String.toList

/-- The terms of one text: the stop-word-filtered tokens (unigrams) together
with all bigrams of adjacent surviving tokens, joined by a space. -/
def termsOf (s : Str) : List Str :=
  let toks := (tokenize s).filter (fun t => decide (t ∉ stopWords))
  toks ++ (toks.zip toks.tail).map (fun p => p.1 ++ ' ' :: p.2)

/-- Vectorizer configuration: the optional `max_features` cap. -/
structure TfidfConfig where
  max_features : Option ℕ
deriving DecidableEq

/-- Document frequency: the number of corpus texts containing the term. -/
def df (corpus : List Str) (t : Str) : ℕ :=
  (corpus.filter (fun d => decide (t ∈ termsOf d))).length

/-- Total number of occurrences of a term across the corpus (used only by the
`max_features` cap). -/
def corpusCount (corpus : List Str) (t : Str) : ℕ :=
  ((corpus.map termsOf).flatten).count t

/-- The fitted vocabulary: every term appearing in some corpus text; when
`max_features` is set, only the terms with the highest total counts are kept
(ties towards the lexicographically smaller term, modelling the stable
selection over the alphabetically ordered vocabulary). -/
def vocabOf (cfg : TfidfConfig) (corpus : List Str) : List Str :=
  let all := ((corpus.map termsOf).flatten).dedup
  match cfg.max_features with
  | none => all
  | some m =>
    (List.insertionSort
      (fun s t => corpusCount corpus t < corpusCount corpus s ∨
        (corpusCount corpus s = corpusCount corpus t ∧ ¬ t < s)) all).take m

/-- The smoothed inverse document frequency
`idf(t) = ln((1 + N) / (1 + df(t))) + 1`. -/
noncomputable def idf (corpus : List Str) (t : Str) : ℝ :=
  Real.log ((1 + corpus.length) / (1 + df corpus t)) + 1

/-- The raw tf-idf vector of a text: term count times learned idf. -/
noncomputable def tfVec (corpus : List Str) (s : Str) : Str → ℝ :=
  fun t => ((termsOf s).count t : ℝ) * idf corpus t

/-- Dot product of two term vectors over the fitted vocabulary. -/
noncomputable def dotV (vocab : List Str) (v w : Str → ℝ) : ℝ :=
  ∑ t ∈ vocab.toFinset, v t * w t

/-- l2 normalisation of a term vector (a zero vector stays zero: in Lean
division by zero yields zero, matching sklearn's guard). -/
noncomputable def l2normalize (vocab : List Str) (v : Str → ℝ) : Str → ℝ :=
  fun t => v t / Real.sqrt (dotV vocab v v)

/-- Cosine similarity of the tf-idf vectors of `a` and `b` over the fitted
vocabulary.  l2 normalisation is idempotent, so the vectorizer's `norm="l2"`
followed by `cosine_similarity`'s renormalisation collapses to a single
normalisation. -/
noncomputable def simScore (cfg : TfidfConfig) (corpus : List Str) (a b : Str) : ℝ :=
  let vocab := vocabOf cfg corpus
  dotV vocab (l2normalize vocab (tfVec corpus a)) (l2normalize vocab (tfVec corpus b))

/-- `grounding_score` from `evaluate.py`: strip both strings, return `0.0` if
either is then empty, otherwise fit a fresh two-document vectorizer over
`[answer, context]` (which raises when the vocabulary is empty) and clamp the
cosine similarity into `[0, 1]`. -/
noncomputable def grounding_score (answer context : Str) : Except String ℝ :=
  let a := strip answer
  let c := strip context
  if a.isEmpty || c.isEmpty then .ok 0
  else
    let corpus := [a, c]
    if (vocabOf ⟨none⟩ corpus).isEmpty then
      .error "empty vocabulary; perhaps the documents only contain stop words"
    else
      let sim := simScore ⟨none⟩ corpus a c
      if sim < 0 then .ok 0 else if sim > 1 then .ok 1 else .ok sim

/-! ## The retriever (`retrieve.py`) -/

/-- A corpus document. -/
structure Document where
  doc_id : String
  title : String
  text : String
deriving DecidableEq, Inhabited

/-- A retrieved document: the document fields plus its similarity score. -/
structure RetrievedDoc where
  doc_id : String
  title : String
  text : String
  score : ℝ

/-- The fitted retriever state: the document list (the fitted matrix and
vocabulary are pure functions of it). -/
structure TfidfRetriever where
  documents : List Document

/-- The retriever's vectorizer passes `max_features=5000`. -/
def retrieveCfg : TfidfConfig := ⟨some 5000⟩

/-- The text unit the retriever indexes per document: `f"{d.title}\n{d.text}"`. -/
def docText (d : Document) : Str := d.title.toList ++ '\n' :: d.text.toList

/-- The corpus of a fitted retriever. -/
def corpusOf (r : TfidfRetriever) : List Str := r.documents.map docText

/-- `TfidfRetriever.__init__`: fails on an empty document list; fitting the
vectorizer additionally raises when the corpus yields an empty vocabulary. -/
def mkTfidfRetriever (documents : List Document) : Except String TfidfRetriever :=
  if documents.isEmpty then .error "documents must not be empty"
  else if (vocabOf retrieveCfg (documents.map docText)).isEmpty then
    .error "empty vocabulary; perhaps the documents only contain stop words"
  else .ok ⟨documents⟩

/-- The similarity row `cosine_similarity(q_vec, self._doc_matrix)`. -/
noncomputable def simsOf (r : TfidfRetriever) (q : Str) : List ℝ :=
  (corpusOf r).map (fun d => simScore retrieveCfg (corpusOf r) q d)

/-- One ascending order on document indices: value strictly smaller, or equal
values with the original index not larger.  `numpy.argsort` with the source's
default `kind='quicksort'` promises only an ascending-by-value permutation and
fixes **no** order between tied values; a definition must pick one output, and
this relation picks the order numpy actually produces on arrays small enough
for its insertion-sort path (such as the two-element tie counterexample
below).  Every universally quantified theorem in this file uses only the
permutation and ascending-by-value facts, which hold for any argsort. -/
def rankRel (s : List ℝ) (i j : ℕ) : Prop :=
  s.getD i 0 < s.getD j 0 ∨ (s.getD i 0 = s.getD j 0 ∧ i ≤ j)

noncomputable instance rankRelDec (s : List ℝ) : DecidableRel (rankRel s) :=
  fun i j =>
    inferInstanceAs (Decidable (s.getD i 0 < s.getD j 0 ∨
      (s.getD i 0 = s.getD j 0 ∧ i ≤ j)))

/-- `sims.argsort()`: the document indices in ascending similarity order
(one concrete realisation of the argsort contract — see `rankRel` on what the
unstable default sort does and does not guarantee between tied values). -/
noncomputable def argsortAsc (s : List ℝ) : List ℕ :=
  List.insertionSort (rankRel s) (List.range s.length)

/-- `sims.argsort()[::-1]`: the descending ranking the source slices from. -/
noncomputable def rankedIdx (s : List ℝ) : List ℕ := (argsortAsc s).reverse

/-- The result list built by `TfidfRetriever.retrieve` after validation:
`ranked_idx = sims.argsort()[::-1][:top_k]`, each index materialised as a
`RetrievedDoc` carrying its score. -/
noncomputable def retrieveResults (r : TfidfRetriever) (q : Str) (top_k : ℤ) :
    List RetrievedDoc :=
  let sims := simsOf r q
  ((rankedIdx sims).take top_k.toNat).map (fun i =>
    let d := r.documents.getD i default
    ⟨d.doc_id, d.title, d.text, sims.getD i 0⟩)

/-- `TfidfRetriever.retrieve`: rejects an empty/whitespace-only query and a
non-positive `top_k`, otherwise returns the ranked top-k slice. -/
noncomputable def retrieve (r : TfidfRetriever) (query : Str) (top_k : ℤ) :
    Except String (List RetrievedDoc) :=
  if allWS query then .error "query must not be empty"
  else if top_k ≤ 0 then .error "top_k must be > 0"
  else .ok (retrieveResults r query top_k)

/-- Python's `round` to an integer: round half to even. -/
def pyRound {α : Type} [LinearOrderedField α] [FloorRing α] (y : α) : ℤ :=
  if Int.fract y = 1/2 then (if 2 ∣ ⌊y⌋ then ⌊y⌋ else ⌊y⌋ + 1) else round y

/-- Python's `round(x, 3)` (on the ideal value, ignoring binary-float
representation error). -/
def round3 {α : Type} [LinearOrderedField α] [FloorRing α] (x : α) : α :=
  (pyRound (x * 1000) : α) / 1000

/-! ## The regression analyzer (`report.py`)

`compare_runs` consumes two eval CSVs keyed by question id.  A well-formed
scored-run record (a row of the CSV produced by `write_eval_csv`) is modelled
with its numeric fields already parsed, as `fnum`/`int` parse them in the
source. -/

/-- One scored-run record, as `compare_runs` reads it. -/
structure EvalRec where
  question : String
  must_include_score : ℚ
  grounding_score : ℚ
  must_not_include_violations : ℤ
deriving DecidableEq

/-- A run: the id-keyed dictionary `load_eval_csv` returns, modelled as its
association list (ids unique, as dictionary keys are). -/
abbrev Run := List (String × EvalRec)

/-- One per-question regression row. -/
structure RegressionDelta where
  id : String
  question : String
  delta_must_include : ℚ
  delta_grounding : ℚ
  delta_violations : ℤ
deriving DecidableEq

/-- The aggregate summary of a comparison. -/
structure CompareSummary where
  count : ℕ
  avg_delta_must_include : ℚ
  avg_delta_grounding : ℚ
  total_new_violations : ℤ
deriving DecidableEq

/-- The key list of a run. -/
def keysOf (run : Run) : List String := run.map Prod.fst

/-- `sorted(set(old) & set(new))`: the shared question ids in ascending
order. -/
def commonIds (old new : Run) : List String :=
  List.insertionSort (fun a b : String => a ≤ b)
    (((keysOf old).filter (fun k => (keysOf new).contains k)).dedup)

/-- `compare_runs` from `report.py`: fails when no ids are shared, otherwise
produces one `RegressionDelta` per common id (new minus old for each metric)
and the aggregate summary. -/
def compare_runs (old new : Run) :
    Except String (CompareSummary × List RegressionDelta) :=
  let common := commonIds old new
  if common.isEmpty then .error "No overlapping question IDs between runs"
  else
    let deltas := common.filterMap (fun qid =>
      match old.lookup qid, new.lookup qid with
      | some o, some n =>
        some { id := qid
               question := n.question
               delta_must_include := n.must_include_score - o.must_include_score
               delta_grounding := n.grounding_score - o.grounding_score
               delta_violations :=
                 n.must_not_include_violations - o.must_not_include_violations }
      | _, _ => none)
    let summary : CompareSummary :=
      { count := deltas.length
        avg_delta_must_include :=
          round3 ((deltas.map RegressionDelta.delta_must_include).sum / deltas.length)
        avg_delta_grounding :=
          round3 ((deltas.map RegressionDelta.delta_grounding).sum / deltas.length)
        total_new_violations :=
          (deltas.map (fun d => max 0 d.delta_violations)).sum }
    .ok (summary, deltas)

/-! ## Batch evaluation (`evaluate_run` from `evaluate.py`) -/

/-- One row of a `run_*.jsonl` artifact, after the `row.get(...)` defaulting
performed at the top of the loop body of `evaluate_run`. -/
structure InputRow where
  id : String
  question : String
  expected : String
  answer : Str
  context : Str
  must_include : List Str
  must_not_include : List Str
  retrieval_latency_ms : Option ℚ
  llm_latency_ms : Option ℚ
  model : Option String
  retrieved_doc_ids : List String

/-- One produced metrics record (a row of the eval CSV). -/
structure EvalRow where
  id : String
  question : String
  expected : String
  answer : Str
  must_include_score : ℚ
  must_not_include_violations : ℕ
  grounding_score : ℝ
  retrieval_latency_ms : Option ℚ
  llm_latency_ms : Option ℚ
  model : Option String
  top_doc_ids : String

/-- The loop body of `evaluate_run`: score one row.  `grounding_score` may
raise, which aborts the whole run, hence the `Except`. -/
noncomputable def evalRow (row : InputRow) : Except String EvalRow := do
  let mi_score := must_include_score row.answer row.must_include
  let violations := must_not_include_violations row.answer row.must_not_include
  let g_score ← grounding_score row.answer row.context
  .ok { id := row.id
        question := row.question
        expected := row.expected
        answer := row.answer
        must_include_score := round3 mi_score
        must_not_include_violations := violations
        grounding_score := round3 g_score
        retrieval_latency_ms := row.retrieval_latency_ms
        llm_latency_ms := row.llm_latency_ms
        model := row.model
        top_doc_ids := String.intercalate "," row.retrieved_doc_ids }

/-- `evaluate_run`: score every row in order, aborting on the first raised
exception. -/
noncomputable def evaluate_run (rows : List InputRow) : Except String (List EvalRow) :=
  rows.mapM evalRow

/-! ## Theorems -/

/-- The two scoring loops count exactly the phrases whose non-empty
normalisation occurs in the normalised answer. -/
lemma must_not_include_violations_eq_countP (answer : Str) (l : List Str) :
    must_not_include_violations answer l =
      l.countP (phraseHit (normalizeText answer)) := by
  unfold must_not_include_violations
  rcases l with _ | ⟨p, l⟩ <;> simp

lemma phraseHit_iff (a p : Str) :
    phraseHit a p = true ↔ normalizeText p ≠ [] ∧ normalizeText p <:+: a := by
  unfold phraseHit
  simp [List.isEmpty_iff]

/-- **C6.** `must_include_score answer [] = 1.0` for every answer; for a
non-empty phrase list the score is the number of phrases whose non-empty
normalisation (lowercased, whitespace collapsed, trimmed) occurs as a literal
substring of the normalised answer, divided by the number of phrases, and so
lies in `[0, 1]`. -/
theorem must_include_score_spec (answer : Str) :
    must_include_score answer [] = 1 ∧
    ∀ l : List Str, l ≠ [] →
      must_include_score answer l =
        ((l.filter (fun p => !(normalizeText p).isEmpty &&
            decide (normalizeText p <:+: normalizeText answer))).length : ℚ) /
          (l.length : ℚ) ∧
      0 ≤ must_include_score answer l ∧ must_include_score answer l ≤ 1 := by
  refine ⟨by simp [must_include_score], fun l hl => ?_⟩
  have hlen : (0 : ℚ) < (l.length : ℚ) := by
    exact_mod_cast List.length_pos.mpr hl
  have hne : l.isEmpty = false := by simp [List.isEmpty_iff, hl]
  have hcount : l.countP (phraseHit (normalizeText answer)) ≤ l.length :=
    List.countP_le_length _
  constructor
  · simp only [must_include_score, hne, Bool.false_eq_true, if_false,
      List.countP_eq_length_filter]
    rfl
  constructor
  · unfold must_include_score
    simp only [hne, Bool.false_eq_true, if_false]
    positivity
  · unfold must_include_score
    simp only [hne, Bool.false_eq_true, if_false]
    rw [div_le_one hlen]
    exact_mod_cast hcount

/-- Witness for `must_include_score_spec`, at the spec's own end-to-end
example: an answer containing "exponential backoff". -/
theorem must_include_score_spec_witness :
    (["exponential backoff".toList] : List Str) ≠ [] ∧
    (must_include_score "Use exponential backoff and retry.".toList
        ["exponential backoff".toList] =
        (((["exponential backoff".toList] : List Str).filter
            (fun p => !(normalizeText p).isEmpty &&
              decide (normalizeText p <:+:
                normalizeText "Use exponential backoff and retry.".toList))).length : ℚ) /
          ((["exponential backoff".toList] : List Str).length : ℚ) ∧
      0 ≤ must_include_score "Use exponential backoff and retry.".toList
            ["exponential backoff".toList] ∧
      must_include_score "Use exponential backoff and retry.".toList
            ["exponential backoff".toList] ≤ 1) :=
  ⟨by decide,
    (must_include_score_spec "Use exponential backoff and retry.".toList).2
      _ (by decide)⟩

/-- **C7.** `must_not_include_violations` is `0` on an empty forbidden list
and whenever no phrase (non-trivially) occurs in the answer; appending more
phrases never decreases it, and appending a phrase that does occur (its
normalisation is non-empty and a substring of the normalised answer) strictly
increases it by one. -/
theorem must_not_include_violations_spec (answer : Str) :
    must_not_include_violations answer [] = 0 ∧
    (∀ l : List Str,
      (∀ p ∈ l, ¬ (normalizeText p <:+: normalizeText answer)) →
      must_not_include_violations answer l = 0) ∧
    (∀ l l' : List Str,
      must_not_include_violations answer l ≤
        must_not_include_violations answer (l ++ l')) ∧
    (∀ (l : List Str) (p : Str), normalizeText p ≠ [] →
      normalizeText p <:+: normalizeText answer →
      must_not_include_violations answer (l ++ [p]) =
        must_not_include_violations answer l + 1) := by
  refine ⟨by simp [must_not_include_violations], fun l hmiss => ?_,
    fun l l' => ?_, fun l p hp hocc => ?_⟩
  · rw [must_not_include_violations_eq_countP, List.countP_eq_zero]
    intro p hpl hhit
    exact hmiss p hpl ((phraseHit_iff _ _).mp hhit).2
  · rw [must_not_include_violations_eq_countP,
      must_not_include_violations_eq_countP, List.countP_append]
    exact Nat.le_add_right _ _
  · rw [must_not_include_violations_eq_countP,
      must_not_include_violations_eq_countP, List.countP_append]
    have hone : List.countP (phraseHit (normalizeText answer)) [p] = 1 := by
      have : phraseHit (normalizeText answer) p = true :=
        (phraseHit_iff _ _).mpr ⟨hp, hocc⟩
      simp [List.countP_cons, this]
    rw [hone]

/-- Witness for `must_not_include_violations_spec`: an answer containing
"exponential backoff" with a miss list, a monotonicity instance, and the
occurring phrase appended. -/
theorem must_not_include_violations_spec_witness :
    (∀ p ∈ (["quota increase".toList] : List Str),
        ¬ (normalizeText p <:+:
            normalizeText "Use exponential backoff and retry.".toList)) ∧
    must_not_include_violations "Use exponential backoff and retry.".toList
        ["quota increase".toList] = 0 ∧
    normalizeText "exponential backoff".toList ≠ [] ∧
    normalizeText "exponential backoff".toList <:+:
        normalizeText "Use exponential backoff and retry.".toList ∧
    must_not_include_violations "Use exponential backoff and retry.".toList
        (["quota increase".toList] ++ ["exponential backoff".toList]) =
      must_not_include_violations "Use exponential backoff and retry.".toList
        ["quota increase".toList] + 1 :=
  ⟨by decide,
    (must_not_include_violations_spec "Use exponential backoff and retry.".toList).2.1
      _ (by decide),
    by decide, by decide,
    (must_not_include_violations_spec "Use exponential backoff and retry.".toList).2.2.2
      _ _ (by decide) (by decide)⟩

/-- Every id in `commonIds old new` is a key of both runs. -/
lemma mem_commonIds {old new : Run} {q : String} (h : q ∈ commonIds old new) :
    q ∈ keysOf old ∧ q ∈ keysOf new := by
  unfold commonIds at h
  have h' := ((List.perm_insertionSort _ _).mem_iff).mp h
  rw [List.mem_dedup, List.mem_filter] at h'
  refine ⟨h'.1, ?_⟩
  simpa using h'.2

/-- A key of the association list has a successful lookup. -/
lemma lookup_of_mem_keys {run : Run} {q : String} (h : q ∈ keysOf run) :
    ∃ v, run.lookup q = some v := by
  induction run with
  | nil => simp [keysOf] at h
  | cons kv run ih =>
    rcases kv with ⟨k, v⟩
    by_cases hk : q = k
    · exact ⟨v, by simp [List.lookup, hk]⟩
    · have hmem : q ∈ keysOf run := by
        simpa [keysOf, hk] using h
      rcases ih hmem with ⟨w, hw⟩
      have hbeq : (q == k) = false := by simp [hk]
      exact ⟨w, by simp [List.lookup, hbeq, hw]⟩

/-- If `f` succeeds on every element of `l` and `g` undoes it, then
`filterMap f` keeps one image per element. -/
lemma map_filterMap_eq_self {α β : Type} {f : α → Option β} {g : β → α}
    {l : List α} (h : ∀ a ∈ l, ∃ b, f a = some b ∧ g b = a) :
    (l.filterMap f).map g = l := by
  induction l with
  | nil => rfl
  | cons a l ih =>
    rcases h a (List.mem_cons_self a l) with ⟨b, hb, hg⟩
    rw [List.filterMap_cons, hb, List.map_cons, hg,
      ih (fun a ha => h a (List.mem_cons_of_mem _ ha))]

/-- **C3.** Comparing a (non-empty) run against itself succeeds and yields a
zero delta in every metric for every common id, and a summary with zero new
violations. -/
theorem compare_runs_self_zero (R : Run) (h : R ≠ []) :
    ∃ s ds, compare_runs R R = .ok (s, ds) ∧
      (∀ d ∈ ds, d.delta_must_include = 0 ∧ d.delta_grounding = 0 ∧
        d.delta_violations = 0) ∧
      s.total_new_violations = 0 := by
  have hkeys : keysOf R ≠ [] := by
    rcases R with _ | ⟨⟨k, v⟩, R⟩
    · exact absurd rfl h
    · simp [keysOf]
  rcases List.exists_mem_of_ne_nil _ hkeys with ⟨k0, hk0⟩
  have hcomm : k0 ∈ commonIds R R := by
    unfold commonIds
    rw [(List.perm_insertionSort _ _).mem_iff, List.mem_dedup, List.mem_filter]
    exact ⟨hk0, by simpa using hk0⟩
  have hne : (commonIds R R).isEmpty = false := by
    rcases hcommnil : commonIds R R with _ | _
    · rw [hcommnil] at hcomm; simp at hcomm
    · rfl
  unfold compare_runs
  simp only [hne, Bool.false_eq_true, if_false]
  refine ⟨_, _, rfl, ?_, ?_⟩
  · intro d hd
    rcases List.mem_filterMap.mp hd with ⟨qid, _, hq⟩
    rcases hl : R.lookup qid with _ | o
    · rw [hl] at hq; simp at hq
    · rw [hl] at hq
      simp only [Option.some.injEq] at hq
      rw [← hq]
      refine ⟨by simp, by simp, by simp⟩
  · apply List.sum_eq_zero
    intro x hx
    rcases List.mem_map.mp hx with ⟨d, hd, hdx⟩
    rcases List.mem_filterMap.mp hd with ⟨qid, _, hq⟩
    rcases hl : R.lookup qid with _ | o
    · rw [hl] at hq; simp at hq
    · rw [hl] at hq
      simp only [Option.some.injEq] at hq
      rw [← hq] at hdx
      simp at hdx
      omega

/-- Witness for `compare_runs_self_zero` at a one-question run. -/
theorem compare_runs_self_zero_witness :
    ([("q1", (⟨"what is backoff", 1/2, 1/4, 2⟩ : EvalRec))] : Run) ≠ [] ∧
    ∃ s ds,
      compare_runs [("q1", (⟨"what is backoff", 1/2, 1/4, 2⟩ : EvalRec))]
          [("q1", (⟨"what is backoff", 1/2, 1/4, 2⟩ : EvalRec))] = .ok (s, ds) ∧
      (∀ d ∈ ds, d.delta_must_include = 0 ∧ d.delta_grounding = 0 ∧
        d.delta_violations = 0) ∧
      s.total_new_violations = 0 :=
  ⟨by decide,
    compare_runs_self_zero [("q1", ⟨"what is backoff", 1/2, 1/4, 2⟩)]
      (by decide)⟩

/-- **C8.** `compare_runs` errors exactly when the two runs share no question
id; on success it produces exactly one `RegressionDelta` per common id (the
delta ids are the common ids, without duplicates), and every common id is a
key of both runs. -/
theorem compare_runs_common_ids (old new : Run) :
    ((∃ e, compare_runs old new = .error e) ↔ commonIds old new = []) ∧
    ∀ s ds, compare_runs old new = .ok (s, ds) →
      ds.map RegressionDelta.id = commonIds old new ∧
      (commonIds old new).Nodup ∧
      ∀ q ∈ commonIds old new, q ∈ keysOf old ∧ q ∈ keysOf new := by
  have hnodup : (commonIds old new).Nodup :=
    ((List.perm_insertionSort _ _).nodup_iff).mpr (List.nodup_dedup _)
  constructor
  · constructor
    · rintro ⟨e, he⟩
      by_contra hne
      have hfalse : (commonIds old new).isEmpty = false := by
        rcases hc : commonIds old new with _ | _
        · exact absurd hc hne
        · rfl
      unfold compare_runs at he
      simp only [hfalse, Bool.false_eq_true, if_false] at he
      exact Except.noConfusion he
    · intro hnil
      refine ⟨"No overlapping question IDs between runs", ?_⟩
      unfold compare_runs
      simp [hnil]
  · intro s ds hok
    have hfalse : (commonIds old new).isEmpty = false := by
      rcases hc : commonIds old new with _ | _
      · unfold compare_runs at hok
        simp [hc] at hok
      · rfl
    unfold compare_runs at hok
    simp only [hfalse, Bool.false_eq_true, if_false, Except.ok.injEq,
      Prod.mk.injEq] at hok
    refine ⟨?_, hnodup, fun q hq => mem_commonIds hq⟩
    rw [← hok.2]
    apply map_filterMap_eq_self
    intro q hq
    rcases mem_commonIds hq with ⟨ho, hn⟩
    rcases lookup_of_mem_keys ho with ⟨o, hlo⟩
    rcases lookup_of_mem_keys hn with ⟨n, hln⟩
    rw [hlo, hln]
    exact ⟨_, rfl, rfl⟩

/-- Witness for `compare_runs_common_ids` at two runs sharing one id. -/
theorem compare_runs_common_ids_witness :
    ∃ s ds,
      compare_runs [("q1", (⟨"old question", 1/2, 1/4, 2⟩ : EvalRec))]
          [("q1", (⟨"new question", 1/2, 1/4, 2⟩ : EvalRec)),
           ("q2", (⟨"added", 1, 0, 0⟩ : EvalRec))] = .ok (s, ds) ∧
      ds.map RegressionDelta.id =
        commonIds [("q1", (⟨"old question", 1/2, 1/4, 2⟩ : EvalRec))]
          [("q1", (⟨"new question", 1/2, 1/4, 2⟩ : EvalRec)),
           ("q2", (⟨"added", 1, 0, 0⟩ : EvalRec))] ∧
      (commonIds [("q1", (⟨"old question", 1/2, 1/4, 2⟩ : EvalRec))]
          [("q1", (⟨"new question", 1/2, 1/4, 2⟩ : EvalRec)),
           ("q2", (⟨"added", 1, 0, 0⟩ : EvalRec))]).Nodup ∧
      ∀ q ∈ commonIds [("q1", (⟨"old question", 1/2, 1/4, 2⟩ : EvalRec))]
          [("q1", (⟨"new question", 1/2, 1/4, 2⟩ : EvalRec)),
           ("q2", (⟨"added", 1, 0, 0⟩ : EvalRec))],
        q ∈ keysOf [("q1", (⟨"old question", 1/2, 1/4, 2⟩ : EvalRec))] ∧
        q ∈ keysOf [("q1", (⟨"new question", 1/2, 1/4, 2⟩ : EvalRec)),
           ("q2", (⟨"added", 1, 0, 0⟩ : EvalRec))] := by
  rcases h : compare_runs [("q1", (⟨"old question", 1/2, 1/4, 2⟩ : EvalRec))]
      [("q1", (⟨"new question", 1/2, 1/4, 2⟩ : EvalRec)),
       ("q2", (⟨"added", 1, 0, 0⟩ : EvalRec))] with e | ⟨s, ds⟩
  · exfalso
    have hnil := ((compare_runs_common_ids _ _).1).mp ⟨e, h⟩
    have hc : commonIds [("q1", (⟨"old question", 1/2, 1/4, 2⟩ : EvalRec))]
        [("q1", (⟨"new question", 1/2, 1/4, 2⟩ : EvalRec)),
         ("q2", (⟨"added", 1, 0, 0⟩ : EvalRec))] = ["q1"] := by decide
    rw [hc] at hnil
    exact List.noConfusion hnil
  · exact ⟨s, ds, rfl, (compare_runs_common_ids _ _).2 s ds h⟩

/-- **C10.** Whenever `grounding_score` returns (rather than raises), the
produced metrics record stores `must_include_score` and `grounding_score`
rounded to three decimal places, and `must_not_include_violations` as the
exact unrounded count. -/
theorem evalRow_rounding (row : InputRow) (g : ℝ)
    (hg : grounding_score row.answer row.context = .ok g) :
    evalRow row = .ok
      { id := row.id
        question := row.question
        expected := row.expected
        answer := row.answer
        must_include_score := round3 (must_include_score row.answer row.must_include)
        must_not_include_violations :=
          must_not_include_violations row.answer row.must_not_include
        grounding_score := round3 g
        retrieval_latency_ms := row.retrieval_latency_ms
        llm_latency_ms := row.llm_latency_ms
        model := row.model
        top_doc_ids := String.intercalate "," row.retrieved_doc_ids } := by
  unfold evalRow
  rw [hg]
  rfl

/-- Witness for `evalRow_rounding` at a row whose empty answer makes
`grounding_score` return `0.0` through its guard. -/
theorem evalRow_rounding_witness :
    grounding_score ([] : Str) "some context".toList = .ok 0 ∧
    evalRow ⟨"q1", "a question", "an expected answer", [],
        "some context".toList, ["alpha".toList], ["beta".toList],
        none, none, none, ["d1", "d2"]⟩ = .ok
      { id := "q1"
        question := "a question"
        expected := "an expected answer"
        answer := []
        must_include_score := round3 (must_include_score [] ["alpha".toList])
        must_not_include_violations := must_not_include_violations [] ["beta".toList]
        grounding_score := round3 (0 : ℝ)
        retrieval_latency_ms := none
        llm_latency_ms := none
        model := none
        top_doc_ids := String.intercalate "," ["d1", "d2"] } :=
  ⟨rfl,
    evalRow_rounding ⟨"q1", "a question", "an expected answer", [],
      "some context".toList, ["alpha".toList], ["beta".toList],
      none, none, none, ["d1", "d2"]⟩ 0 rfl⟩

/-- **C9.** There are non-empty, non-whitespace inputs on which
`grounding_score` raises instead of returning a score: a stop-word-only text
yields an empty vocabulary, and `TfidfVectorizer.fit_transform` raises
`ValueError: empty vocabulary; ...`. -/
theorem grounding_score_stopwords_raise :
    allWS "the of and".toList = false ∧
    grounding_score "the of and".toList "the of and".toList =
      .error "empty vocabulary; perhaps the documents only contain stop words" :=
  ⟨by decide, rfl⟩

lemma df_le_length (corpus : List Str) (t : Str) : df corpus t ≤ corpus.length :=
  List.length_filter_le _ _

lemma idf_pos (corpus : List Str) (t : Str) : 0 < idf corpus t := by
  unfold idf
  have hdf : (df corpus t : ℝ) ≤ (corpus.length : ℝ) := by
    exact_mod_cast df_le_length corpus t
  have hden : (0 : ℝ) < 1 + df corpus t := by positivity
  have hlog : 0 ≤ Real.log ((1 + corpus.length) / (1 + df corpus t)) := by
    apply Real.log_nonneg
    rw [le_div_iff₀ hden]
    linarith
  linarith

lemma tfVec_nonneg (corpus : List Str) (s t : Str) : 0 ≤ tfVec corpus s t :=
  mul_nonneg (Nat.cast_nonneg _) (idf_pos corpus t).le

lemma dotV_self_nonneg (vocab : List Str) (v : Str → ℝ) : 0 ≤ dotV vocab v v :=
  Finset.sum_nonneg fun t _ => mul_self_nonneg (v t)

lemma dotV_nonneg (vocab : List Str) (v w : Str → ℝ)
    (hv : ∀ t, 0 ≤ v t) (hw : ∀ t, 0 ≤ w t) : 0 ≤ dotV vocab v w :=
  Finset.sum_nonneg fun t _ => mul_nonneg (hv t) (hw t)

/-- The self dot product of an l2-normalised vector is `d / d` for `d` the
raw self dot product (so `1` for a non-zero vector and `0` for a zero one). -/
lemma dotV_l2normalize_self (vocab : List Str) (v : Str → ℝ) :
    dotV vocab (l2normalize vocab v) (l2normalize vocab v) =
      dotV vocab v v / dotV vocab v v := by
  have hnn : 0 ≤ dotV vocab v v := dotV_self_nonneg vocab v
  have hsq : Real.sqrt (dotV vocab v v) * Real.sqrt (dotV vocab v v) =
      dotV vocab v v := Real.mul_self_sqrt hnn
  have hstep : dotV vocab (l2normalize vocab v) (l2normalize vocab v) =
      ∑ t ∈ vocab.toFinset, (v t * v t) / dotV vocab v v := by
    refine Finset.sum_congr rfl fun t _ => ?_
    rw [show l2normalize vocab v t = v t / Real.sqrt (dotV vocab v v) from rfl,
      div_mul_div_comm, hsq]
  rw [hstep, ← Finset.sum_div]
  rfl

instance rankRelIsTotal (s : List ℝ) : IsTotal ℕ (rankRel s) := by
  constructor
  intro i j
  rcases lt_trichotomy (s.getD i 0) (s.getD j 0) with h | h | h
  · exact Or.inl (Or.inl h)
  · rcases le_total i j with hij | hij
    · exact Or.inl (Or.inr ⟨h, hij⟩)
    · exact Or.inr (Or.inr ⟨h.symm, hij⟩)
  · exact Or.inr (Or.inl h)

instance rankRelIsTrans (s : List ℝ) : IsTrans ℕ (rankRel s) := by
  constructor
  intro a b c hab hbc
  rcases hab with h1 | ⟨e1, l1⟩
  · rcases hbc with h2 | ⟨e2, l2⟩
    · exact Or.inl (h1.trans h2)
    · exact Or.inl (lt_of_lt_of_eq h1 e2)
  · rcases hbc with h2 | ⟨e2, l2⟩
    · exact Or.inl (lt_of_eq_of_lt e1 h2)
    · exact Or.inr ⟨e1.trans e2, l1.trans l2⟩

lemma argsortAsc_perm (s : List ℝ) : List.Perm (argsortAsc s) (List.range s.length) :=
  List.perm_insertionSort _ _

lemma rankedIdx_perm (s : List ℝ) : List.Perm (rankedIdx s) (List.range s.length) :=
  (List.reverse_perm _).trans (argsortAsc_perm s)

lemma rankedIdx_length (s : List ℝ) : (rankedIdx s).length = s.length := by
  rw [(rankedIdx_perm s).length_eq, List.length_range]

lemma mem_rankedIdx_lt {s : List ℝ} {i : ℕ} (h : i ∈ rankedIdx s) :
    i < s.length := by
  have := (rankedIdx_perm s).mem_iff.mp h
  simpa using this

/-- The descending ranking is pairwise ordered by the reversed stable
relation: a later entry has a strictly smaller similarity, or an equal
similarity and a smaller original index. -/
lemma rankedIdx_pairwise (s : List ℝ) :
    (rankedIdx s).Pairwise (fun i j => rankRel s j i) := by
  have hs : (argsortAsc s).Pairwise (rankRel s) := List.sorted_insertionSort _ _
  exact List.pairwise_reverse.mpr hs

lemma simsOf_length (r : TfidfRetriever) (q : Str) :
    (simsOf r q).length = r.documents.length := by
  simp [simsOf, corpusOf]

lemma map_getD_range {α : Type} (l : List α) (d : α) :
    (List.range l.length).map (fun i => l.getD i d) = l := by
  apply List.ext_getElem
  · simp
  · intro i h1 h2
    simp [List.getD_eq_getElem?_getD, List.getElem?_eq_getElem h2]

/-! ### Similarity scores lie in `[0, 1]` -/

lemma l2normalize_nonneg (vocab : List Str) (v : Str → ℝ)
    (hv : ∀ t, 0 ≤ v t) (t : Str) : 0 ≤ l2normalize vocab v t :=
  div_nonneg (hv t) (Real.sqrt_nonneg _)

lemma dotV_l2normalize_self_le_one (vocab : List Str) (v : Str → ℝ) :
    dotV vocab (l2normalize vocab v) (l2normalize vocab v) ≤ 1 := by
  rw [dotV_l2normalize_self]
  rcases eq_or_ne (dotV vocab v v) 0 with h | h
  · rw [h]
    norm_num
  · rw [div_self h]

/-- Cauchy–Schwarz: the dot product of two l2-normalised vectors is at
most 1. -/
lemma dotV_l2normalize_le_one (vocab : List Str) (v w : Str → ℝ) :
    dotV vocab (l2normalize vocab v) (l2normalize vocab w) ≤ 1 := by
  have hcs : (∑ t ∈ vocab.toFinset,
        l2normalize vocab v t * l2normalize vocab w t) ^ 2 ≤
      (∑ t ∈ vocab.toFinset, l2normalize vocab v t ^ 2) *
        (∑ t ∈ vocab.toFinset, l2normalize vocab w t ^ 2) :=
    Finset.sum_mul_sq_le_sq_mul_sq _ _ _
  have hf : (∑ t ∈ vocab.toFinset, l2normalize vocab v t ^ 2) ≤ 1 := by
    have h := dotV_l2normalize_self_le_one vocab v
    unfold dotV at h
    simpa [pow_two] using h
  have hg : (∑ t ∈ vocab.toFinset, l2normalize vocab w t ^ 2) ≤ 1 := by
    have h := dotV_l2normalize_self_le_one vocab w
    unfold dotV at h
    simpa [pow_two] using h
  have hgnn : (0 : ℝ) ≤ ∑ t ∈ vocab.toFinset, l2normalize vocab w t ^ 2 :=
    Finset.sum_nonneg fun t _ => sq_nonneg _
  have h1 : (∑ t ∈ vocab.toFinset,
      l2normalize vocab v t * l2normalize vocab w t) ^ 2 ≤ 1 :=
    hcs.trans (mul_le_one₀ hf hgnn hg)
  rw [sq_le_one_iff_abs_le_one] at h1
  calc dotV vocab (l2normalize vocab v) (l2normalize vocab w)
      ≤ |∑ t ∈ vocab.toFinset, l2normalize vocab v t * l2normalize vocab w t| :=
        le_abs_self _
    _ ≤ 1 := h1

lemma simScore_nonneg (cfg : TfidfConfig) (corpus : List Str) (a b : Str) :
    0 ≤ simScore cfg corpus a b := by
  unfold simScore
  exact dotV_nonneg _ _ _
    (l2normalize_nonneg _ _ (tfVec_nonneg corpus a))
    (l2normalize_nonneg _ _ (tfVec_nonneg corpus b))

lemma simScore_le_one (cfg : TfidfConfig) (corpus : List Str) (a b : Str) :
    simScore cfg corpus a b ≤ 1 := by
  unfold simScore
  exact dotV_l2normalize_le_one _ _ _

lemma simsOf_getD_bounds (r : TfidfRetriever) (q : Str) {i : ℕ}
    (h : i < (simsOf r q).length) :
    0 ≤ (simsOf r q).getD i 0 ∧ (simsOf r q).getD i 0 ≤ 1 := by
  rw [List.getD_eq_getElem?_getD, List.getElem?_eq_getElem h, Option.getD_some]
  have hc : i < (corpusOf r).length := by
    simpa [simsOf] using h
  have hi : (simsOf r q)[i] =
      simScore retrieveCfg (corpusOf r) q ((corpusOf r).get ⟨i, hc⟩) := by
    simp [simsOf]
  rw [hi]
  exact ⟨simScore_nonneg _ _ _ _, simScore_le_one _ _ _ _⟩

/-! ### The retrieval claims -/

/-- **C5.** Given a fitted retriever, `retrieve` raises exactly when the
query is empty or whitespace-only or `top_k` is non-positive; for every
other input it returns normally. -/
theorem retrieve_error_iff (r : TfidfRetriever) (q : Str) (k : ℤ) :
    (∃ e, retrieve r q k = .error e) ↔ (allWS q = true ∨ k ≤ 0) := by
  unfold retrieve
  cases hq : allWS q
  · by_cases hk : k ≤ 0 <;> simp [hk]
  · simp

/-- **C4.** When `top_k` exceeds the collection size, `retrieve` does not
raise and returns all documents (the result strips to a permutation of the
collection). -/
theorem retrieve_k_exceeds (r : TfidfRetriever) (q : Str) (k : ℤ)
    (hq : allWS q = false) (hk : (r.documents.length : ℤ) < k) :
    retrieve r q k = .ok (retrieveResults r q k) ∧
    (retrieveResults r q k).length = r.documents.length ∧
    List.Perm ((retrieveResults r q k).map
      (fun rd => Document.mk rd.doc_id rd.title rd.text)) r.documents := by
  have hk0 : ¬ k ≤ 0 := by
    have : (0 : ℤ) ≤ r.documents.length := Int.natCast_nonneg _
    omega
  have htake : (rankedIdx (simsOf r q)).length ≤ k.toNat := by
    rw [rankedIdx_length, simsOf_length]
    omega
  refine ⟨by simp [retrieve, hq, hk0], ?_, ?_⟩
  · simp only [retrieveResults]
    rw [List.length_map, List.take_of_length_le htake, rankedIdx_length,
      simsOf_length]
  · simp only [retrieveResults]
    rw [List.take_of_length_le htake, List.map_map]
    have h1 : List.Perm ((rankedIdx (simsOf r q)).map
        (fun i => r.documents.getD i default)) r.documents := by
      have h2 := (rankedIdx_perm (simsOf r q)).map
        (fun i => r.documents.getD i default)
      rwa [simsOf_length, map_getD_range] at h2
    exact h1

/-- Witness for `retrieve_k_exceeds`: one document, `top_k = 5`. -/
theorem retrieve_k_exceeds_witness :
    allWS "rate limit".toList = false ∧
    ((TfidfRetriever.mk [⟨"d1", "HTTP 429", "rate limiting"⟩]).documents.length : ℤ) < 5 ∧
    (retrieve ⟨[⟨"d1", "HTTP 429", "rate limiting"⟩]⟩ "rate limit".toList 5 =
        .ok (retrieveResults ⟨[⟨"d1", "HTTP 429", "rate limiting"⟩]⟩
          "rate limit".toList 5) ∧
      (retrieveResults ⟨[⟨"d1", "HTTP 429", "rate limiting"⟩]⟩
          "rate limit".toList 5).length =
        (TfidfRetriever.mk [⟨"d1", "HTTP 429", "rate limiting"⟩]).documents.length ∧
      List.Perm ((retrieveResults ⟨[⟨"d1", "HTTP 429", "rate limiting"⟩]⟩
          "rate limit".toList 5).map
          (fun rd => Document.mk rd.doc_id rd.title rd.text))
        (TfidfRetriever.mk [⟨"d1", "HTTP 429", "rate limiting"⟩]).documents) :=
  ⟨by decide, by decide,
    retrieve_k_exceeds ⟨[⟨"d1", "HTTP 429", "rate limiting"⟩]⟩
      "rate limit".toList 5 (by decide) (by decide)⟩

/-- **C1, amended.**  For a valid query and positive `top_k`, `retrieve`
returns at most `min(k, N)` results, each score lies in `[0, 1]`, and the
results are sorted non-increasing by score.  No tie order is guaranteed: the
source reverses `sims.argsort()` with numpy's default unstable sort, so
documents with tied scores appear in no specified order — in particular the
claimed stable tie-break by original collection order fails (see
`retrieve_tie_order_counterexample`).  Every property stated here holds for
any ascending-by-value argsort permutation, stable or not. -/
theorem retrieve_topk_sorted (r : TfidfRetriever) (q : Str) (k : ℤ)
    (hq : allWS q = false) (hk : 0 < k) :
    retrieve r q k = .ok (retrieveResults r q k) ∧
    (retrieveResults r q k).length = min k.toNat r.documents.length ∧
    (∀ rd ∈ retrieveResults r q k, 0 ≤ rd.score ∧ rd.score ≤ 1) ∧
    ((retrieveResults r q k).map RetrievedDoc.score).Pairwise (fun a b => b ≤ a) := by
  have hk0 : ¬ k ≤ 0 := by omega
  have htp : ((rankedIdx (simsOf r q)).take k.toNat).Pairwise
      (fun i j => rankRel (simsOf r q) j i) :=
    (rankedIdx_pairwise (simsOf r q)).sublist (List.take_sublist _ _)
  refine ⟨by simp [retrieve, hq, hk0], ?_, ?_, ?_⟩
  · simp only [retrieveResults]
    rw [List.length_map, List.length_take, rankedIdx_length, simsOf_length]
  · intro rd hrd
    simp only [retrieveResults, List.mem_map] at hrd
    rcases hrd with ⟨i, hi, hrd⟩
    have hlt : i < (simsOf r q).length :=
      mem_rankedIdx_lt (List.mem_of_mem_take hi)
    have hb := simsOf_getD_bounds r q hlt
    rw [← hrd]
    exact hb
  · have hmap : (retrieveResults r q k).map RetrievedDoc.score =
        ((rankedIdx (simsOf r q)).take k.toNat).map
          (fun i => (simsOf r q).getD i 0) := by
      simp only [retrieveResults, List.map_map]
      rfl
    rw [hmap, List.pairwise_map]
    refine htp.imp ?_
    intro i j hrel
    rcases hrel with h | ⟨h, _⟩
    · exact h.le
    · exact h.le

/-- Witness for `retrieve_topk_sorted`: the spec's three-document scenario
with `top_k = 2`. -/
theorem retrieve_topk_sorted_witness :
    allWS "Why do I get HTTP 429 from Azure OpenAI and what should I do?".toList
        = false ∧
    (0 : ℤ) < 2 ∧
    (retrieve ⟨[⟨"d1", "HTTP 429 rate limiting", "Too many requests"⟩,
        ⟨"d2", "Request timeout", "The request timed out"⟩,
        ⟨"d3", "Authentication failure", "Invalid credentials"⟩]⟩
        "Why do I get HTTP 429 from Azure OpenAI and what should I do?".toList 2 =
        .ok (retrieveResults ⟨[⟨"d1", "HTTP 429 rate limiting", "Too many requests"⟩,
          ⟨"d2", "Request timeout", "The request timed out"⟩,
          ⟨"d3", "Authentication failure", "Invalid credentials"⟩]⟩
          "Why do I get HTTP 429 from Azure OpenAI and what should I do?".toList 2) ∧
      (retrieveResults ⟨[⟨"d1", "HTTP 429 rate limiting", "Too many requests"⟩,
          ⟨"d2", "Request timeout", "The request timed out"⟩,
          ⟨"d3", "Authentication failure", "Invalid credentials"⟩]⟩
          "Why do I get HTTP 429 from Azure OpenAI and what should I do?".toList 2).length =
        min (2 : ℤ).toNat
          (TfidfRetriever.mk [⟨"d1", "HTTP 429 rate limiting", "Too many requests"⟩,
            ⟨"d2", "Request timeout", "The request timed out"⟩,
            ⟨"d3", "Authentication failure", "Invalid credentials"⟩]).documents.length ∧
      (∀ rd ∈ retrieveResults ⟨[⟨"d1", "HTTP 429 rate limiting", "Too many requests"⟩,
          ⟨"d2", "Request timeout", "The request timed out"⟩,
          ⟨"d3", "Authentication failure", "Invalid credentials"⟩]⟩
          "Why do I get HTTP 429 from Azure OpenAI and what should I do?".toList 2,
        0 ≤ rd.score ∧ rd.score ≤ 1) ∧
      ((retrieveResults ⟨[⟨"d1", "HTTP 429 rate limiting", "Too many requests"⟩,
          ⟨"d2", "Request timeout", "The request timed out"⟩,
          ⟨"d3", "Authentication failure", "Invalid credentials"⟩]⟩
          "Why do I get HTTP 429 from Azure OpenAI and what should I do?".toList 2).map
          RetrievedDoc.score).Pairwise (fun a b => b ≤ a)) :=
  ⟨by decide, by decide,
    retrieve_topk_sorted ⟨[⟨"d1", "HTTP 429 rate limiting", "Too many requests"⟩,
      ⟨"d2", "Request timeout", "The request timed out"⟩,
      ⟨"d3", "Authentication failure", "Invalid credentials"⟩]⟩
      "Why do I get HTTP 429 from Azure OpenAI and what should I do?".toList 2
      (by decide) (by decide)⟩

/-- The two-identical-document collection used to refute the stable
tie-break of C1 (original collection order is `d1` before `d2`).  At two
elements the array is below numpy's insertion-sort threshold, where the
real `argsort` deterministically keeps tied indices in ascending order, so
the model's output coincides with the program's here. -/
def tieDocs : List Document :=
  [⟨"d1", "Apple pie", "apple pie recipe"⟩,
   ⟨"d2", "Apple pie", "apple pie recipe"⟩]

/-- **C1, counterexample.**  Two documents with identical text receive
identical scores, yet `retrieve` returns them as `[d2, d1]` — the reverse of
their collection order — because `sims.argsort()[::-1]` inverts the order the
(here deterministic, see `tieDocs`) argsort gives tied documents.  This
refutes the claimed stable tie-break by original collection order; on larger
collections the unstable default sort guarantees no tie order at all. -/
theorem retrieve_tie_order_counterexample :
    Except.map (List.map RetrievedDoc.doc_id)
        (retrieve ⟨tieDocs⟩ "apple".toList 2) = .ok ["d2", "d1"] ∧
    (((retrieve ⟨tieDocs⟩ "apple".toList 2).toOption.getD []).map
        RetrievedDoc.score).Pairwise (fun a b => a = b) := by
  have h01 : rankRel (simsOf ⟨tieDocs⟩ "apple".toList) 0 1 :=
    Or.inr ⟨rfl, Nat.zero_le 1⟩
  have hrange : List.range (simsOf ⟨tieDocs⟩ "apple".toList).length = [0, 1] := by
    rw [simsOf_length]
    rfl
  have hsort : argsortAsc (simsOf ⟨tieDocs⟩ "apple".toList) = [0, 1] := by
    unfold argsortAsc
    rw [hrange]
    simp only [List.insertionSort, List.orderedInsert]
    rw [if_pos h01]
  have hranked : rankedIdx (simsOf ⟨tieDocs⟩ "apple".toList) = [1, 0] := by
    unfold rankedIdx
    rw [hsort]
    rfl
  have hres : retrieve ⟨tieDocs⟩ "apple".toList 2 =
      .ok (retrieveResults ⟨tieDocs⟩ "apple".toList 2) := by
    unfold retrieve
    rw [if_neg (by decide : ¬ (allWS "apple".toList = true)),
      if_neg (by decide : ¬ ((2 : ℤ) ≤ 0))]
  have hresults : retrieveResults ⟨tieDocs⟩ "apple".toList 2 =
      [⟨"d2", "Apple pie", "apple pie recipe",
          (simsOf ⟨tieDocs⟩ "apple".toList).getD 1 0⟩,
       ⟨"d1", "Apple pie", "apple pie recipe",
          (simsOf ⟨tieDocs⟩ "apple".toList).getD 0 0⟩] := by
    simp only [retrieveResults]
    rw [hranked]
    rfl
  constructor
  · rw [hres, hresults]
    rfl
  · rw [hres, hresults]
    simp only [Except.toOption, Option.getD_some, List.map_cons, List.map_nil]
    refine List.Pairwise.cons ?_ (List.pairwise_singleton _ _)
    intro b hb
    rw [List.mem_singleton] at hb
    rw [hb]
    rfl

end RagEval
